import Mathlib

/-!
# Verification of the sshsshje monitoring API core

Shallow embedding of `src/sshsshje_api.py`: the SSH connection pool
(`SSHConnectionPool`), the command runner (`execute_ssh_command`), the
diagnostics collector (`get_diagnostics`) and the WebSocket subscriber
registry (`ConnectionManager`).

Channels (paramiko `SSHClient` objects) and WebSockets are identified by
their object identity, modelled as natural numbers.  Remote-side
nondeterminism (liveness probes, connection establishment, command
execution, WebSocket delivery) is supplied by explicit environment
records, so every embedded operation is a pure function of the state and
the environment.  None of the pool / manager methods contain an `await`
in their mutation paths, so under the single asyncio event loop each call
runs atomically; the sequential state-transition model below is therefore
faithful.
-/

namespace Sshsshje

/-- A pooled SSH channel, identified by the identity of its
`paramiko.SSHClient` object. -/
abbrev Channel := Nat

/-- State of `SSHConnectionPool`: `pool` models the Python list
`self._pool` (order matters for the scan), `inUse` models the Python set
`self._in_use`, and `maxConnections` the `max_connections` attribute
(default 5 for the global `ssh_pool`). -/
structure PoolState where
  pool : List Channel
  inUse : Finset Channel
  maxConnections : Nat

instance : DecidableEq PoolState := fun a b =>
  decidable_of_iff
    (a.pool = b.pool ∧ a.inUse = b.inUse ∧ a.maxConnections = b.maxConnections)
    (by cases a; cases b; simp)

/-- Probe timeout used in `client.exec_command('echo "test"', timeout=5)`
inside `get_connection`. -/
def probe_timeout : Nat := 5

/-- Connect timeout used in `client.connect(..., timeout=10, ...)`
inside `get_connection`. -/
def connect_timeout : Nat := 10

/-- Default `max_connections` of `SSHConnectionPool.__init__`; the global
`ssh_pool` is built with this default. -/
def default_max_connections : Nat := 5

/-- Environment for one `get_connection` call: `alive c` is whether the
liveness probe `client.exec_command('echo "test"', timeout=5)` succeeds on
channel `c`; `connectOk` is whether `client.connect(...)` succeeds when a
new connection is attempted; `freshChan` is the identity of the freshly
constructed `paramiko.SSHClient()` object (fresh, hence distinct from
every pooled channel); `connectErrMsg` is the message of the exception
raised by `client.connect` when it fails. -/
structure AcquireEnv where
  alive : Channel → Bool
  connectOk : Bool
  freshChan : Channel
  connectErrMsg : String

/-- Errors raised by `get_connection` (both surface as HTTP 503):
`connectFailure msg` models
`HTTPException(503, "Cannot connect to remote server: <e>")` and
`poolExhausted` models `HTTPException(503, "SSH connection pool exhausted")`. -/
inductive PoolError where
  | connectFailure (msg : String)
  | poolExhausted
  deriving DecidableEq

instance {ε α : Type} [DecidableEq ε] [DecidableEq α] : DecidableEq (Except ε α) :=
  fun x y =>
    match x, y with
    | .ok a, .ok b => decidable_of_iff (a = b) (by simp)
    | .error a, .error b => decidable_of_iff (a = b) (by simp)
    | .ok _, .error _ => isFalse (by simp)
    | .error _, .ok _ => isFalse (by simp)

/-!
The reuse scan of `get_connection`:

```python
for client in self._pool:
    if client not in self._in_use:
        try:
            client.exec_command('echo "test"', timeout=5)
            self._in_use.add(client)
            return client
        except:
            self._pool.remove(client)   # mutates the list being iterated
            try: client.close()
            except: pass
```

A Python list iterator keeps an integer cursor: after yielding
`self._pool[i]` the cursor is `i + 1`.  When the body removes the yielded
element (which, the pool being duplicate-free, sits at position `i`),
every later element shifts down by one, so the next `__next__` yields the
element that was originally at position `i + 2`: evicting a dead channel
*skips* the channel right after it, which is neither probed nor evicted
and stays in the pool.  `scanGo alive inUse rest kept` models the loop
with `kept` the already-traversed prefix of `self._pool` (kept in the
list) and `rest` the part the cursor has not yet passed; the dead-channel
branch drops the current element and moves the skipped one straight into
`kept`.  It returns (channel found, final `_pool`, final `_in_use`).
-/
def scanGo (alive : Channel → Bool) (inUse : Finset Channel) :
    List Channel → List Channel → Option Channel × List Channel × Finset Channel
  | [], kept => (none, kept, inUse)
  | c :: rest, kept =>
    if c ∈ inUse then
      scanGo alive inUse rest (kept ++ [c])
    else if alive c then
      (some c, kept ++ c :: rest, insert c inUse)
    else
      match rest with
      | [] => (none, kept, inUse)
      | d :: rest' => scanGo alive inUse rest' (kept ++ [d])

/-- Model of `SSHConnectionPool.get_connection`: scan for a reusable live channel;
otherwise, if the (post-eviction) pool is below `max_connections`, create
a new connection (`timeout=10`), append it to the pool, mark it in-use and
return it; a connect failure raises `connectFailure` (HTTP 503) carrying
the cause; a full pool raises `poolExhausted` (HTTP 503).  The returned
state is the pool state after the call, including the evictions performed
by the scan even on the error paths. -/
def get_connection (env : AcquireEnv) (s : PoolState) :
    Except PoolError Channel × PoolState :=
  match scanGo env.alive s.inUse s.pool [] with
  | (some c, pool', inUse') =>
    (Except.ok c, ⟨pool', inUse', s.maxConnections⟩)
  | (none, pool', inUse') =>
    if pool'.length < s.maxConnections then
      if env.connectOk then
        (Except.ok env.freshChan,
          ⟨pool' ++ [env.freshChan], insert env.freshChan inUse', s.maxConnections⟩)
      else
        (Except.error (PoolError.connectFailure env.connectErrMsg),
          ⟨pool', inUse', s.maxConnections⟩)
    else
      (Except.error PoolError.poolExhausted, ⟨pool', inUse', s.maxConnections⟩)

/-- Model of `SSHConnectionPool.release_connection`:
`if client in self._in_use: self._in_use.remove(client)`.
Total (never raises), touches only the in-use set. -/
def release_connection (s : PoolState) (c : Channel) : PoolState :=
  { s with inUse := s.inUse.erase c }

/-- The scan only ever drops channels: the final pool is a sublist of the
traversed prefix followed by the unscanned suffix. -/
theorem scanGo_sublist (alive : Channel → Bool) (inUse : Finset Channel)
    (l kept : List Channel) :
    List.Sublist (scanGo alive inUse l kept).2.1 (kept ++ l) := by
  induction l, kept using scanGo.induct alive inUse with
  | case1 kept => simp [scanGo.eq_1]
  | case2 c rest kept hmem ih =>
    rw [scanGo.eq_def]
    simp only [if_pos hmem]
    refine ih.trans ?_
    simp
  | case3 c rest kept hmem halive =>
    rw [scanGo.eq_def]
    simp [hmem, halive]
  | case4 c kept hmem halive =>
    rw [scanGo.eq_def]
    simp only [if_neg hmem, halive, if_neg, if_false, Bool.false_eq_true]
    exact List.sublist_append_left kept [c]
  | case5 c kept hmem halive d rest' ih =>
    rw [scanGo.eq_3]
    simp only [if_neg hmem, halive, if_false, Bool.false_eq_true]
    refine ih.trans ?_
    rw [List.append_assoc]
    exact (List.sublist_cons_self c (d :: rest')).append_left kept

/-- Channels that are checked out are never evicted by the scan: every
in-use channel present in the pool is still present afterwards. -/
theorem scanGo_inUse_mem (alive : Channel → Bool) (inUse : Finset Channel)
    (l kept : List Channel) (x : Channel) (hx : x ∈ inUse) :
    x ∈ kept ++ l → x ∈ (scanGo alive inUse l kept).2.1 := by
  induction l, kept using scanGo.induct alive inUse with
  | case1 kept => intro h; rw [scanGo.eq_1]; simpa using h
  | case2 c rest kept hmem ih =>
    intro h
    rw [scanGo.eq_def]
    simp only [if_pos hmem]
    apply ih
    simpa [List.append_assoc] using h
  | case3 c rest kept hmem halive =>
    intro h
    rw [scanGo.eq_def]
    simpa [hmem, halive] using h
  | case4 c kept hmem halive =>
    intro h
    rw [scanGo.eq_def]
    simp only [if_neg hmem, halive, if_false, Bool.false_eq_true]
    rcases List.mem_append.1 h with h' | h'
    · exact h'
    · exact absurd hx (by simpa using (List.mem_singleton.1 h') ▸ hmem)
  | case5 c kept hmem halive d rest' ih =>
    intro h
    rw [scanGo.eq_3]
    simp only [if_neg hmem, halive, if_false, Bool.false_eq_true]
    apply ih
    have hxc : x ≠ c := fun hxc => hmem (hxc ▸ hx)
    simp only [List.append_assoc, List.singleton_append, List.mem_append,
      List.mem_cons] at h ⊢
    tauto

/-- When the scan finds no live channel, the in-use set is unchanged. -/
theorem scanGo_none_inUse (alive : Channel → Bool) (inUse : Finset Channel)
    (l kept : List Channel)
    (h : (scanGo alive inUse l kept).1 = none) :
    (scanGo alive inUse l kept).2.2 = inUse := by
  induction l, kept using scanGo.induct alive inUse with
  | case1 kept => rw [scanGo.eq_1]
  | case2 c rest kept hmem ih =>
    rw [scanGo.eq_def] at h ⊢
    simp only [if_pos hmem] at h ⊢
    exact ih h
  | case3 c rest kept hmem halive =>
    rw [scanGo.eq_def] at h
    simp [hmem, halive] at h
  | case4 c kept hmem halive =>
    rw [scanGo.eq_def]
    simp [hmem, halive]
  | case5 c kept hmem halive d rest' ih =>
    rw [scanGo.eq_3] at h ⊢
    simp only [if_neg hmem, halive, if_false, Bool.false_eq_true] at h ⊢
    exact ih h

/-- When the scan returns a channel, that channel was free, passed the
liveness probe, went into the in-use set, and is still in the pool. -/
theorem scanGo_some (alive : Channel → Bool) (inUse : Finset Channel)
    (l kept : List Channel) (c : Channel)
    (h : (scanGo alive inUse l kept).1 = some c) :
    (scanGo alive inUse l kept).2.2 = insert c inUse ∧ c ∉ inUse ∧
      c ∈ (scanGo alive inUse l kept).2.1 ∧ alive c = true := by
  induction l, kept using scanGo.induct alive inUse with
  | case1 kept => rw [scanGo.eq_1] at h; simp at h
  | case2 c' rest kept hmem ih =>
    rw [scanGo.eq_def] at h ⊢
    simp only [if_pos hmem] at h ⊢
    exact ih h
  | case3 c' rest kept hmem halive =>
    rw [scanGo.eq_def] at h ⊢
    simp only [if_neg hmem, halive, if_true] at h ⊢
    obtain rfl : c' = c := by simpa using h
    exact ⟨rfl, hmem, by simp, halive⟩
  | case4 c' kept hmem halive =>
    rw [scanGo.eq_def] at h
    simp [hmem, halive] at h
  | case5 c' kept hmem halive d rest' ih =>
    rw [scanGo.eq_3] at h ⊢
    simp only [if_neg hmem, halive, if_false, Bool.false_eq_true] at h ⊢
    exact ih h

/-- If every unscanned channel is checked out, the scan finds nothing and
changes nothing: the pool keeps its order, the in-use set is untouched. -/
theorem scanGo_all_inUse (alive : Channel → Bool) (inUse : Finset Channel)
    (l kept : List Channel) (h : ∀ x ∈ l, x ∈ inUse) :
    scanGo alive inUse l kept = (none, kept ++ l, inUse) := by
  induction l generalizing kept with
  | nil => simp [scanGo.eq_1]
  | cons c rest ih =>
    rw [scanGo.eq_def]
    simp only [if_pos (h c (by simp))]
    rw [ih _ fun x hx => h x (by simp [hx])]
    simp

/-- Pool well-formedness: every checked-out channel is a pooled channel,
the pool list is duplicate-free (paramiko client objects are distinct),
and the pool never exceeds its capacity. -/
def Inv (s : PoolState) : Prop :=
  (∀ c ∈ s.inUse, c ∈ s.pool) ∧ s.pool.Nodup ∧ s.pool.length ≤ s.maxConnections

/-- One observable transition of the global `ssh_pool` object: a
`get_connection` call (with any remote-side outcome; the freshly built
`paramiko.SSHClient()` is a new object, hence not in the pool) or a
`release_connection` call with any argument. -/
inductive Step : PoolState → PoolState → Prop
  | acquire (env : AcquireEnv) (s : PoolState)
      (hfresh : env.freshChan ∉ s.pool) :
      Step s (get_connection env s).2
  | release (s : PoolState) (c : Channel) :
      Step s (release_connection s c)

/-- Pool states reachable from a freshly constructed
`SSHConnectionPool(host, port, username, max_connections)` (empty pool,
empty in-use set) by any interleaving of acquires and releases. -/
inductive Reachable : PoolState → Prop
  | init (max : Nat) : Reachable ⟨[], ∅, max⟩
  | step {s s' : PoolState} : Reachable s → Step s s' → Reachable s'

theorem inv_get_connection (env : AcquireEnv) (s : PoolState)
    (hfresh : env.freshChan ∉ s.pool) (hs : Inv s) :
    Inv (get_connection env s).2 := by
  obtain ⟨hsub, hnd, hlen⟩ := hs
  have hscan_sub := scanGo_sublist env.alive s.inUse s.pool []
  simp only [List.nil_append] at hscan_sub
  rcases hscan : scanGo env.alive s.inUse s.pool [] with ⟨o, pool', inUse'⟩
  rw [hscan] at hscan_sub
  have hnd' : pool'.Nodup := hnd.sublist hscan_sub
  have hlen' : pool'.length ≤ s.maxConnections :=
    le_trans hscan_sub.length_le hlen
  have hmem' : ∀ x ∈ s.inUse, x ∈ pool' := by
    intro x hx
    have := scanGo_inUse_mem env.alive s.inUse s.pool [] x hx
      (by simpa using hsub x hx)
    rwa [hscan] at this
  cases o with
  | some c =>
    have hsome := scanGo_some env.alive s.inUse s.pool [] c (by rw [hscan])
    rw [hscan] at hsome
    have hins : inUse' = insert c s.inUse := hsome.1
    have hcpool : c ∈ pool' := hsome.2.2.1
    have hgc : (get_connection env s).2 =
        ⟨pool', insert c s.inUse, s.maxConnections⟩ := by
      simp [get_connection, hscan, hins]
    rw [hgc]
    refine ⟨?_, hnd', hlen'⟩
    intro x hx
    rcases Finset.mem_insert.1 hx with rfl | hx
    · exact hcpool
    · exact hmem' x hx
  | none =>
    have hnone := scanGo_none_inUse env.alive s.inUse s.pool [] (by rw [hscan])
    rw [hscan] at hnone
    subst hnone
    by_cases hfull : pool'.length < s.maxConnections
    · cases hco : env.connectOk with
      | true =>
        have hfresh' : env.freshChan ∉ pool' := fun hm =>
          hfresh (hscan_sub.mem hm)
        have hgc : (get_connection env s).2 =
            ⟨pool' ++ [env.freshChan], insert env.freshChan s.inUse,
              s.maxConnections⟩ := by
          simp [get_connection, hscan, hfull, hco]
        rw [hgc]
        refine ⟨?_, ?_, ?_⟩
        · intro x hx
          rcases Finset.mem_insert.1 hx with rfl | hx
          · simp
          · simp [hmem' x hx]
        · simpa [List.nodup_append] using ⟨hnd', hfresh'⟩
        · simpa using hfull
      | false =>
        have hgc : (get_connection env s).2 =
            ⟨pool', s.inUse, s.maxConnections⟩ := by
          simp [get_connection, hscan, hfull, hco]
        rw [hgc]
        exact ⟨hmem', hnd', hlen'⟩
    · have hgc : (get_connection env s).2 =
          ⟨pool', s.inUse, s.maxConnections⟩ := by
        simp [get_connection, hscan, hfull]
      rw [hgc]
      exact ⟨hmem', hnd', hlen'⟩

theorem inv_release (s : PoolState) (c : Channel) (hs : Inv s) :
    Inv (release_connection s c) := by
  obtain ⟨hsub, hnd, hlen⟩ := hs
  exact ⟨fun x hx => hsub x (Finset.mem_of_mem_erase hx), hnd, hlen⟩

theorem inv_step {s s' : PoolState} (h : Step s s') : Inv s → Inv s' := by
  cases h with
  | acquire env s hfresh => exact inv_get_connection env s hfresh
  | release s c => exact inv_release s c

theorem inv_reachable {s : PoolState} (h : Reachable s) : Inv s := by
  induction h with
  | init max => exact ⟨by simp, List.nodup_nil, by simp⟩
  | step _ hstep ih => exact inv_step hstep ih

/-- C2: in every reachable pool state the number of checked-out channels
is at most the number of pooled channels, which is at most the pool's
maximum size; and an acquire never hands out a channel that is already
checked out, so no channel is ever checked out to two callers at once. -/
theorem pool_invariants_reachable (s : PoolState) (h : Reachable s) :
    s.inUse.card ≤ s.pool.length ∧ s.pool.length ≤ s.maxConnections ∧
      (∀ env c s', env.freshChan ∉ s.pool →
        get_connection env s = (Except.ok c, s') → c ∉ s.inUse) := by
  obtain ⟨hsub, hnd, hlen⟩ := inv_reachable h
  refine ⟨?_, hlen, ?_⟩
  · calc s.inUse.card ≤ s.pool.toFinset.card :=
          Finset.card_le_card fun x hx => List.mem_toFinset.2 (hsub x hx)
      _ = s.pool.length := List.toFinset_card_of_nodup hnd
  · intro env c s' hfresh hgc
    rcases hscan : scanGo env.alive s.inUse s.pool [] with ⟨o, pool', inUse'⟩
    cases o with
    | some c' =>
      have h1 : (get_connection env s).1 = Except.ok c' := by
        simp [get_connection, hscan]
      rw [hgc] at h1
      have hcc : c = c' := by simpa using h1
      subst hcc
      exact (scanGo_some env.alive s.inUse s.pool [] c (by rw [hscan])).2.1
    | none =>
      by_cases hfull : pool'.length < s.maxConnections
      · cases hco : env.connectOk with
        | true =>
          have h1 : (get_connection env s).1 = Except.ok env.freshChan := by
            simp [get_connection, hscan, hfull, hco]
          rw [hgc] at h1
          obtain rfl : c = env.freshChan := by simpa using h1
          exact fun hin => hfresh (hsub _ hin)
        | false =>
          have h1 : (get_connection env s).1 =
              Except.error (PoolError.connectFailure env.connectErrMsg) := by
            simp [get_connection, hscan, hfull, hco]
          rw [hgc] at h1
          simp at h1
      · have h1 : (get_connection env s).1 = Except.error PoolError.poolExhausted := by
          simp [get_connection, hscan, hfull]
        rw [hgc] at h1
        simp at h1

/-- Witness for C2 at the reachable state reached by one successful
acquire from a fresh default pool (pool `[0]`, channel `0` checked out,
maximum 5); a further acquire hands out the fresh channel `3`, which was
not checked out. -/
theorem pool_invariants_reachable_witness :
    ({0} : Finset Channel).card ≤ ([0] : List Channel).length ∧
    ([0] : List Channel).length ≤ 5 ∧
    (3 : Channel) ∉ ({0} : Finset Channel) := by
  have h0 : (get_connection ⟨fun _ => false, true, 0, ""⟩ ⟨[], ∅, 5⟩).2 =
      ⟨[0], {0}, 5⟩ := by decide
  have hr : Reachable ⟨[0], {0}, 5⟩ :=
    Reachable.step (Reachable.init 5)
      (h0 ▸ Step.acquire ⟨fun _ => false, true, 0, ""⟩ ⟨[], ∅, 5⟩ (by simp))
  have h := pool_invariants_reachable ⟨[0], {0}, 5⟩ hr
  exact ⟨h.1, h.2.1,
    h.2.2 ⟨fun _ => true, true, 3, ""⟩ 3 ⟨[0, 3], {0, 3}, 5⟩ (by decide) (by decide)⟩

/-- C3 (failing input for the eviction bug): pool `[1, 2]`, both channels
available and both failing the liveness probe.  `get_connection` evicts
channel `1`, but the `self._pool.remove(client)` inside the
`for client in self._pool:` loop shifts the list under the iterator, so
channel `2` is never probed and never evicted; the call then creates the
new connection `3` while the probe-failing channel `2` is still in the
pool — contradicting the claim that every available channel failing the
probe is evicted before a new connection is created. -/
theorem eviction_skips_following_channel :
    get_connection ⟨fun _ => false, true, 3, "err"⟩ ⟨[1, 2], ∅, 5⟩ =
      (Except.ok 3, ⟨[2, 3], {3}, 5⟩) ∧
    (2 : Channel) ∈ (get_connection ⟨fun _ => false, true, 3, "err"⟩
      ⟨[1, 2], ∅, 5⟩).2.pool := by decide

/-- C4: acquiring when every pooled channel is checked out: with the pool
below its maximum, a successful connect (made with `connect_timeout = 10`)
appends exactly one fresh channel, marks it checked out and returns it,
while a failed connect surfaces as `connectFailure` carrying the cause;
with the pool at (or beyond) its maximum, the call fails with
`poolExhausted`.  The pool state is unchanged on both failure paths. -/
theorem acquire_no_available (env : AcquireEnv) (s : PoolState)
    (h : ∀ c ∈ s.pool, c ∈ s.inUse) :
    (s.pool.length < s.maxConnections →
      (env.connectOk = true →
        get_connection env s =
          (Except.ok env.freshChan,
            ⟨s.pool ++ [env.freshChan], insert env.freshChan s.inUse,
              s.maxConnections⟩)) ∧
      (env.connectOk = false →
        get_connection env s =
          (Except.error (PoolError.connectFailure env.connectErrMsg), s))) ∧
    (s.maxConnections ≤ s.pool.length →
      get_connection env s = (Except.error PoolError.poolExhausted, s)) ∧
    connect_timeout = 10 := by
  have hscan := scanGo_all_inUse env.alive s.inUse s.pool [] h
  simp only [List.nil_append] at hscan
  refine ⟨fun hlt => ⟨fun hco => ?_, fun hco => ?_⟩, fun hge => ?_, rfl⟩
  · simp [get_connection, hscan, hlt, hco]
  · simp [get_connection, hscan, hlt, hco]
  · have hnlt : ¬ s.pool.length < s.maxConnections := by omega
    simp [get_connection, hscan, hnlt]

/-- Witness for C4: all three branches at concrete pools — a successful
connect from a one-channel pool, a failed connect, and exhaustion at the
default maximum of five channels. -/
theorem acquire_no_available_witness :
    get_connection ⟨fun _ => true, true, 2, "m"⟩ ⟨[1], {1}, 5⟩ =
      (Except.ok 2, ⟨[1, 2], insert 2 {1}, 5⟩) ∧
    get_connection ⟨fun _ => true, false, 2, "boom"⟩ ⟨[1], {1}, 5⟩ =
      (Except.error (PoolError.connectFailure "boom"), ⟨[1], {1}, 5⟩) ∧
    get_connection ⟨fun _ => true, true, 9, "m"⟩
        ⟨[1, 2, 3, 4, 5], {1, 2, 3, 4, 5}, 5⟩ =
      (Except.error PoolError.poolExhausted,
        ⟨[1, 2, 3, 4, 5], {1, 2, 3, 4, 5}, 5⟩) := by
  refine ⟨?_, ?_, ?_⟩
  · exact ((acquire_no_available _ _ (by decide)).1 (by decide)).1 rfl
  · exact ((acquire_no_available _ _ (by decide)).1 (by decide)).2 rfl
  · exact (acquire_no_available _ _ (by decide)).2.1 (by decide)

/-- C5: `release_connection` never touches the pool list or the maximum
(so it never closes or removes a channel), leaves the released channel no
longer checked out, is the identity when the channel was not checked out
(unknown or already available), and does not affect the checked-out
status of any other channel.  It is a total function: it never raises. -/
theorem release_marks_available (s : PoolState) (c : Channel) :
    (release_connection s c).pool = s.pool ∧
    (release_connection s c).maxConnections = s.maxConnections ∧
    c ∉ (release_connection s c).inUse ∧
    (c ∉ s.inUse → release_connection s c = s) ∧
    (∀ d, d ≠ c → (d ∈ (release_connection s c).inUse ↔ d ∈ s.inUse)) := by
  refine ⟨rfl, rfl, Finset.not_mem_erase c s.inUse, ?_, ?_⟩
  · intro h
    cases s with
    | mk p i m => simp [release_connection, Finset.erase_eq_self.2 h]
  · intro d hd
    simp [release_connection, Finset.mem_erase, hd]

/-- Witness for C5: releasing the checked-out channel `1` frees it;
releasing the unknown channel `2` is a no-op on the same pool. -/
theorem release_marks_available_witness :
    (1 : Channel) ∉ (release_connection ⟨[1], {1}, 5⟩ 1).inUse ∧
    release_connection ⟨[1], {1}, 5⟩ 2 = ⟨[1], {1}, 5⟩ := by
  exact ⟨(release_marks_available ⟨[1], {1}, 5⟩ 1).2.2.1,
    (release_marks_available ⟨[1], {1}, 5⟩ 2).2.2.2.1 (by decide)⟩

/-!
## The command runner `execute_ssh_command`

```python
async def execute_ssh_command(command, timeout=30):
    client = await ssh_pool.get_connection()   # outside the try block
    try:
        stdin, stdout, stderr = client.exec_command(command, timeout=timeout)
        stdout_data = stdout.read().decode('utf-8')
        stderr_data = stderr.read().decode('utf-8')
        exit_status = stdout.channel.recv_exit_status()
        return {'stdout': ..., 'stderr': ..., 'exit_status': ..., 'success': exit_status == 0}
    except Exception as e:
        return {'stdout': '', 'stderr': str(e), 'exit_status': -1, 'success': False}
    finally:
        ssh_pool.release_connection(client)
```

`get_connection` is called before the `try`, so its exceptions
(`poolExhausted`, `connectFailure`, both HTTP 503) propagate to the
caller and the `finally` release does not run (the channel was never
handed out).  Exceptions raised inside the `try` (execution errors, read
timeouts) are converted to a degraded result, and the `finally` always
releases the acquired channel.
-/

/-- Outcome of `client.exec_command(command, timeout=timeout)` together
with the stdout/stderr reads and `recv_exit_status()`: either every step
succeeds, yielding the decoded streams and the exit status, or some step
raises an exception (paramiko error, read timeout, decode error) whose
string form is `msg`. -/
inductive ExecOutcome where
  | ok (stdout stderr : String) (exit_status : Int)
  | exn (msg : String)
  deriving DecidableEq

/-- The dict returned by `execute_ssh_command`:
`{'stdout', 'stderr', 'exit_status', 'success'}`. -/
structure CommandResult where
  stdout : String
  stderr : String
  exit_status : Int
  success : Bool
  deriving DecidableEq

/-- Default `timeout=30` of `execute_ssh_command`. -/
def default_command_timeout : Nat := 30

/-- Environment for one `execute_ssh_command` call: the acquire
environment for the pool plus the outcome of executing a given command
with a given timeout on a given channel. -/
structure RunEnv where
  acquire : AcquireEnv
  exec : String → Nat → Channel → ExecOutcome

/-- Model of `execute_ssh_command(command, timeout)`.  Returns the degraded dict
`{'stdout': '', 'stderr': str(e), 'exit_status': -1, 'success': False}`
when execution raises, and propagates `get_connection` errors unchanged;
the acquired channel is released on both of its exit paths. -/
def execute_ssh_command (env : RunEnv) (command : String) (timeout : Nat)
    (s : PoolState) : Except PoolError CommandResult × PoolState :=
  match get_connection env.acquire s with
  | (Except.error e, s') => (Except.error e, s')
  | (Except.ok c, s') =>
    let res : CommandResult :=
      match env.exec command timeout c with
      | ExecOutcome.ok out err code => ⟨out, err, code, code == 0⟩
      | ExecOutcome.exn msg => ⟨"", msg, -1, false⟩
    (Except.ok res, release_connection s' c)

/-- C1 (counterexample): with the default pool at its maximum of 5 and
every channel checked out, `execute_ssh_command` does not return a
degraded CommandResult — the `poolExhausted` error (HTTP 503 in the
source) propagates to the caller, because `get_connection` is called
outside the `try` block. -/
theorem run_propagates_pool_exhausted :
    execute_ssh_command
      ⟨⟨fun _ => false, true, 9, "e"⟩, fun _ _ _ => ExecOutcome.ok "out" "" 0⟩
      "echo hi" 30 ⟨[1, 2, 3, 4, 5], {1, 2, 3, 4, 5}, 5⟩ =
      (Except.error PoolError.poolExhausted,
        ⟨[1, 2, 3, 4, 5], {1, 2, 3, 4, 5}, 5⟩) := by decide

/-- C1 (amended): for every command, timeout, pool state and remote
behaviour, `execute_ssh_command` either propagates the channel-acquisition
error exactly as raised by `get_connection` (pool exhausted / connect
failure), or — once a channel is acquired — always returns a well-formed
CommandResult with `success` derived as `exit_status == 0`, degrading any
exception thrown during execution or output reading into
`{stdout = "", stderr = msg, exit_status = -1, success = false}` instead
of raising. -/
theorem run_absorbs_exec_errors_only (env : RunEnv) (command : String)
    (timeout : Nat) (s : PoolState) :
    (∀ e s', get_connection env.acquire s = (Except.error e, s') →
        execute_ssh_command env command timeout s = (Except.error e, s')) ∧
    (∀ c s', get_connection env.acquire s = (Except.ok c, s') →
        ∃ r, execute_ssh_command env command timeout s =
              (Except.ok r, release_connection s' c) ∧
            r.success = (r.exit_status == 0) ∧
            (∀ msg, env.exec command timeout c = ExecOutcome.exn msg →
              r = ⟨"", msg, -1, false⟩)) := by
  constructor
  · intro e s' h
    simp [execute_ssh_command, h]
  · intro c s' h
    cases hexec : env.exec command timeout c with
    | ok out err code =>
      refine ⟨⟨out, err, code, code == 0⟩, ?_, rfl, ?_⟩
      · simp [execute_ssh_command, h, hexec]
      · intro msg hm
        exact absurd hm (by simp)
    | exn msg =>
      refine ⟨⟨"", msg, -1, false⟩, ?_, by rfl, ?_⟩
      · simp [execute_ssh_command, h, hexec]
      · intro msg' hm
        have h4 : msg = msg' := by injection hm
        rw [h4]

/-- Witness for C1 (amended): an exception ("boom") during execution on
the freshly connected channel 7 is absorbed into the degraded result and
the channel is released. -/
theorem run_absorbs_exec_errors_only_witness :
    execute_ssh_command
      ⟨⟨fun _ => false, true, 7, "e"⟩, fun _ _ _ => ExecOutcome.exn "boom"⟩
      "ls" 30 ⟨[], ∅, 5⟩ =
      (Except.ok ⟨"", "boom", -1, false⟩, ⟨[7], ∅, 5⟩) := by
  obtain ⟨r, hr, _, hmsg⟩ :=
    (run_absorbs_exec_errors_only
      ⟨⟨fun _ => false, true, 7, "e"⟩, fun _ _ _ => ExecOutcome.exn "boom"⟩
      "ls" 30 ⟨[], ∅, 5⟩).2 7 ⟨[7], {7}, 5⟩ (by decide)
  rw [hr, hmsg "boom" rfl]
  decide

/-- C6: whenever `execute_ssh_command` successfully acquires a channel,
the final pool state is exactly the release of that channel on the
post-acquire state — on normal completion, timeout and execution
exceptions alike (the `finally` block) — so the channel is not checked
out after the call returns: no channel leak. -/
theorem run_releases_channel (env : RunEnv) (command : String)
    (timeout : Nat) (s : PoolState) (c : Channel) (s' : PoolState)
    (h : get_connection env.acquire s = (Except.ok c, s')) :
    (execute_ssh_command env command timeout s).2 = release_connection s' c ∧
    c ∉ (execute_ssh_command env command timeout s).2.inUse := by
  have h2 : (execute_ssh_command env command timeout s).2 =
      release_connection s' c := by
    simp [execute_ssh_command, h]
  refine ⟨h2, ?_⟩
  rw [h2]
  exact Finset.not_mem_erase c s'.inUse

/-- Witness for C6: a command whose execution raises ("timeout") on the
reused live channel 4 still ends with channel 4 released. -/
theorem run_releases_channel_witness :
    (execute_ssh_command
      ⟨⟨fun _ => true, true, 9, "e"⟩, fun _ _ _ => ExecOutcome.exn "timeout"⟩
      "sleep 100" 30 ⟨[4], ∅, 5⟩).2 = ⟨[4], ∅, 5⟩ ∧
    (4 : Channel) ∉ (execute_ssh_command
      ⟨⟨fun _ => true, true, 9, "e"⟩, fun _ _ _ => ExecOutcome.exn "timeout"⟩
      "sleep 100" 30 ⟨[4], ∅, 5⟩).2.inUse := by
  have h := run_releases_channel
    ⟨⟨fun _ => true, true, 9, "e"⟩, fun _ _ _ => ExecOutcome.exn "timeout"⟩
    "sleep 100" 30 ⟨[4], ∅, 5⟩ 4 ⟨[4], {4}, 5⟩ (by decide)
  refine ⟨?_, h.2⟩
  rw [h.1]
  decide

/-!
## The diagnostics collector `get_diagnostics`

Pure synthesis over the outputs of the other collectors.  The numeric
inputs are Python floats; they are modelled as rationals (the thresholds
and all claimed inputs are exact, so no floating-point subtlety is in
play).  Python's `f"... {x:.1f}%"` one-decimal formatting is rendered
here as the exact decimal string of the rational; no claim depends on the
description text.  `now` models `int(time.time())` at the moment each
issue id is built.
-/

/-- The fields of the system-metrics snapshot that `get_diagnostics`
reads: `system.get('cpu_usage', 0)`,
`system.get('memory', {}).get('percent', 0)` and
`system.get('disk', {}).get('/', {}).get('percent', 0)` (the `.get`
defaults are applied by the caller producing this record). -/
structure SystemMetrics where
  cpu_usage : ℚ
  memory_percent : ℚ
  disk_percent : ℚ

/-- One entry of `services['services']`: its dict key (`service_name`)
and its `active` flag. -/
structure ServiceEntry where
  name : String
  active : Bool
  deriving DecidableEq

/-- The fields of `get_services_status()` that `get_diagnostics` reads:
the service map (in dict iteration order) and `unhealthy_count`. -/
structure ServicesStatus where
  services : List ServiceEntry
  unhealthy_count : Nat

/-- The field of `get_containers_status()` that `get_diagnostics` reads:
`containers.get('stopped', 0)`. -/
structure ContainersStatus where
  stopped : Nat

/-- An element of the `issues` list built by `get_diagnostics`. -/
structure Issue where
  id : String
  severity : String
  category : String
  title : String
  description : String
  resolution : String
  can_auto_resolve : Bool
  deriving DecidableEq

/-- The dict returned by `get_diagnostics`:
`{'timestamp', 'issues', 'health_score'}`. -/
structure Diagnostics where
  timestamp : Nat
  issues : List Issue
  health_score : Int
  deriving DecidableEq

/-- The issue appended for a stopped service inside the
`for service_name, service_data in services...` loop. -/
def service_issue (now : Nat) (n : String) : Issue :=
  ⟨s!"service_{n}_{now}", "critical", "service", s!"{n} service stopped",
    s!"Service {n} is not running", s!"Restart {n} service", true⟩

/-- One iteration of the stopped-service loop: skip active services;
for an inactive one, append its issue and subtract 15. -/
def service_step (now : Nat) (acc : List Issue × Int) (sd : ServiceEntry) :
    List Issue × Int :=
  if sd.active then acc
  else (acc.1 ++ [service_issue now sd.name], acc.2 - 15)

/-- Model of `get_diagnostics`, lines 485–560 of the source.  Each Python
`if cond: issues.append(...); health_score -= w` is rendered as a pair of
`if`s with the same condition (same semantics, separate accumulators);
the service loop keeps the paired accumulator.  The stopped-container
branch only subtracts `stopped * 10` — it appends no issue.  The returned
score is `max(0, health_score)`. -/
def get_diagnostics (system : SystemMetrics) (services : ServicesStatus)
    (containers : ContainersStatus) (now : Nat) : Diagnostics :=
  let cpu := system.cpu_usage
  let memory_percent := system.memory_percent
  let disk_percent := system.disk_percent
  let issues1 : List Issue :=
    if cpu > 80 then
      [⟨s!"cpu_high_{now}", "warning", "system", "High CPU usage",
        s!"CPU usage is {cpu}%",
        "Check running processes and optimize resource usage", false⟩]
    else []
  let score1 : Int := if cpu > 80 then 100 - 15 else 100
  let issues2 : List Issue :=
    if memory_percent > 90 then
      issues1 ++ [⟨s!"memory_high_{now}", "critical", "system",
        "High memory usage", s!"Memory usage is {memory_percent}%",
        "Restart memory-intensive services or increase memory", false⟩]
    else issues1
  let score2 : Int := if memory_percent > 90 then score1 - 25 else score1
  let issues3 : List Issue :=
    if disk_percent > 85 then
      issues2 ++ [⟨s!"disk_full_{now}", "warning", "system",
        "Disk space low", s!"Disk usage is {disk_percent}%",
        "Clean temporary files and logs", true⟩]
    else issues2
  let score3 : Int := if disk_percent > 85 then score2 - 20 else score2
  let svc : List Issue × Int :=
    if services.unhealthy_count > 0 then
      services.services.foldl (service_step now) (issues3, score3)
    else (issues3, score3)
  let score5 : Int :=
    if containers.stopped > 0 then svc.2 - (containers.stopped : Int) * 10
    else svc.2
  ⟨now, svc.1, max 0 score5⟩

/-- Number of inactive entries in the service map — the number of
iterations of the stopped-service loop that fire. -/
def inactive_count (svcs : ServicesStatus) : Nat :=
  (svcs.services.filter fun sd => !sd.active).length

theorem foldl_service_step_snd (now : Nat) (l : List ServiceEntry)
    (acc : List Issue × Int) :
    (l.foldl (service_step now) acc).2 =
      acc.2 - 15 * ((l.filter fun sd => !sd.active).length : Int) := by
  induction l generalizing acc with
  | nil => simp
  | cons sd rest ih =>
    rw [List.foldl_cons, ih]
    cases h : sd.active with
    | true => simp [service_step, h]
    | false =>
      simp only [service_step, h, Bool.false_eq_true, if_false,
        List.filter_cons, Bool.not_false, if_true, List.length_cons]
      push_cast
      ring

theorem foldl_service_step_fst_len (now : Nat) (l : List ServiceEntry)
    (acc : List Issue × Int) :
    (l.foldl (service_step now) acc).1.length =
      acc.1.length + (l.filter fun sd => !sd.active).length := by
  induction l generalizing acc with
  | nil => simp
  | cons sd rest ih =>
    rw [List.foldl_cons, ih]
    cases h : sd.active with
    | true => simp [service_step, h]
    | false =>
      simp [service_step, h]
      omega

/-- Service map with the five monitored services, all active. -/
def all_active_services : List ServiceEntry :=
  [⟨"ssh", true⟩, ⟨"nginx", true⟩, ⟨"docker", true⟩,
    ⟨"postgresql", true⟩, ⟨"redis-server", true⟩]

/-- Service map with three stopped services. -/
def three_stopped_services : List ServiceEntry :=
  [⟨"ssh", true⟩, ⟨"nginx", false⟩, ⟨"docker", false⟩,
    ⟨"postgresql", false⟩, ⟨"redis-server", true⟩]

/-- C7: the health score starts at 100, loses exactly 15 when CPU > 80,
25 when memory > 90, 20 when disk > 85, 15 per inactive monitored
service and 10 per stopped container, and the result is clamped below at
0.  In particular CPU=85, memory=50, disk=50 with nothing stopped scores
exactly 85 with exactly one issue, of severity "warning"; and CPU=95,
memory=95, disk=95 with three stopped services clamps to exactly 0. -/
theorem diagnostics_health_score (system : SystemMetrics)
    (services : ServicesStatus) (containers : ContainersStatus) (now : Nat) :
    ((get_diagnostics system services containers now).health_score =
      max 0 (100 - (if system.cpu_usage > 80 then 15 else 0)
        - (if system.memory_percent > 90 then 25 else 0)
        - (if system.disk_percent > 85 then 20 else 0)
        - (if services.unhealthy_count > 0 then
            15 * (inactive_count services : Int) else 0)
        - (if containers.stopped > 0 then (containers.stopped : Int) * 10
           else 0)) ∧
     0 ≤ (get_diagnostics system services containers now).health_score) ∧
    ((get_diagnostics ⟨85, 50, 50⟩ ⟨all_active_services, 0⟩ ⟨0⟩ 0).health_score
        = 85 ∧
     (get_diagnostics ⟨85, 50, 50⟩ ⟨all_active_services, 0⟩ ⟨0⟩ 0).issues.length
        = 1 ∧
     ∀ i ∈ (get_diagnostics ⟨85, 50, 50⟩ ⟨all_active_services, 0⟩ ⟨0⟩ 0).issues,
        i.severity = "warning") ∧
    (get_diagnostics ⟨95, 95, 95⟩ ⟨three_stopped_services, 3⟩ ⟨0⟩ 0).health_score
      = 0 := by
  refine ⟨⟨?_, ?_⟩, by decide, by decide⟩
  · simp only [get_diagnostics, inactive_count]
    split_ifs with h1 h2 h3 h4 h5 <;>
      simp_all [foldl_service_step_snd]
  · simp only [get_diagnostics]
    exact le_max_left 0 _

/-- Witness for C7: the clamp conjunct of `diagnostics_health_score`
applied at CPU=95, memory=95, disk=95, three stopped services and two
stopped containers: the returned score is never negative. -/
theorem diagnostics_health_score_witness :
    0 ≤ (get_diagnostics ⟨95, 95, 95⟩
      ⟨three_stopped_services, 3⟩ ⟨2⟩ 7).health_score :=
  (diagnostics_health_score ⟨95, 95, 95⟩ ⟨three_stopped_services, 3⟩ ⟨2⟩ 7).1.2

/-- C8 (counterexample): with healthy system metrics and services but two
stopped containers, the health score is decremented by 20 (to 80) while
the issues list stays empty — the stopped-container condition appends no
Issue, contradicting the claim that every score-decrementing condition
emits one. -/
theorem stopped_containers_emit_no_issue :
    get_diagnostics ⟨50, 50, 50⟩ ⟨all_active_services, 0⟩ ⟨2⟩ 0 =
      ⟨0, [], 80⟩ := by decide

/-- C8 (amended): every score-decrementing condition except the
stopped-container one appends exactly one Issue per firing — the issues
list has one entry per fired CPU/memory/disk condition plus one per
inactive service — while the stopped-container condition decrements
10 per stopped container without appending any Issue: the issues list is
entirely independent of the container summary. -/
theorem issues_match_noncontainer_conditions (system : SystemMetrics)
    (services : ServicesStatus) (containers : ContainersStatus) (now : Nat) :
    (get_diagnostics system services containers now).issues.length =
      ((if system.cpu_usage > 80 then 1 else 0)
        + (if system.memory_percent > 90 then 1 else 0)
        + (if system.disk_percent > 85 then 1 else 0)
        + (if services.unhealthy_count > 0 then inactive_count services
           else 0)) ∧
    (get_diagnostics system services containers now).issues =
      (get_diagnostics system services ⟨0⟩ now).issues := by
  constructor
  · simp only [get_diagnostics, inactive_count]
    split_ifs with h1 h2 h3 h4 <;>
      simp_all [foldl_service_step_fst_len]
  · simp only [get_diagnostics]

/-- Witness for C8 (amended): CPU and memory fired, disk and services
healthy, four stopped containers — exactly two issues. -/
theorem issues_match_noncontainer_conditions_witness :
    (get_diagnostics ⟨85, 95, 50⟩ ⟨all_active_services, 0⟩ ⟨4⟩ 1).issues.length
      = 2 := by
  have h :=
    (issues_match_noncontainer_conditions ⟨85, 95, 50⟩
      ⟨all_active_services, 0⟩ ⟨4⟩ 1).1
  rw [h]
  decide

/-!
## The WebSocket subscriber registry `ConnectionManager`

WebSocket objects are identified by object identity (naturals).  The
outcome of `await connection.send_json(message)` for a given payload and
subscriber is supplied by the environment function `sendOk` (`true`:
delivery succeeds, `false`: it raises and the `except` branch runs).
-/

/-- A connected WebSocket client, identified by object identity. -/
abbrev WebSocket := Nat

/-- State of `ConnectionManager`: the Python list `self.active_connections`. -/
structure ConnectionManager where
  active_connections : List WebSocket
  deriving DecidableEq

/-- Model of `ConnectionManager.connect` (after the accept): appends the socket. -/
def connect (m : ConnectionManager) (ws : WebSocket) : ConnectionManager :=
  ⟨m.active_connections ++ [ws]⟩

/-- Model of `ConnectionManager.disconnect`:
`if websocket in self.active_connections: self.active_connections.remove(websocket)` —
removes the first occurrence, no-op when absent (which is exactly
`List.erase`).  Total: never raises. -/
def disconnect (m : ConnectionManager) (ws : WebSocket) : ConnectionManager :=
  ⟨m.active_connections.erase ws⟩

/-- Model of `ConnectionManager.broadcast(message)`: when the registry is
non-empty, attempt `send_json` once per registered connection in order
(each failure is caught and the connection is noted in
`dead_connections`), then disconnect the dead connections after the
loop.  Returns the list of sockets to which a delivery attempt was made,
together with the new registry state.  Total: never raises. -/
def broadcast (sendOk : String → WebSocket → Bool) (message : String)
    (m : ConnectionManager) : List WebSocket × ConnectionManager :=
  if m.active_connections = [] then ([], m)
  else
    let dead := m.active_connections.filter fun c => !(sendOk message c)
    (m.active_connections, dead.foldl disconnect m)

theorem foldl_disconnect_count (dead : List WebSocket)
    (m : ConnectionManager) (ws : WebSocket) :
    (dead.foldl disconnect m).active_connections.count ws =
      m.active_connections.count ws - dead.count ws := by
  induction dead generalizing m with
  | nil => simp
  | cons d rest ih =>
    rw [List.foldl_cons, ih]
    simp only [disconnect, List.count_erase, List.count_cons]
    rcases eq_or_ne d ws with rfl | hne
    · simp
      omega
    · simp [hne, Ne.symm hne]

/-- Every broadcast attempts delivery exactly to the sockets registered
at its start (shared by the C9 and C10 developments). -/
theorem broadcast_fst (sendOk : String → WebSocket → Bool) (message : String)
    (m : ConnectionManager) :
    (broadcast sendOk message m).1 = m.active_connections := by
  unfold broadcast
  split
  · simp [*]
  · rfl

theorem broadcast_count (sendOk : String → WebSocket → Bool)
    (message : String) (m : ConnectionManager) (ws : WebSocket) :
    (broadcast sendOk message m).2.active_connections.count ws =
      if sendOk message ws then m.active_connections.count ws else 0 := by
  unfold broadcast
  split
  · rename_i h
    cases hso : sendOk message ws <;> simp [h]
  · simp only
    rw [foldl_disconnect_count]
    cases hso : sendOk message ws with
    | true =>
      have hz : (m.active_connections.filter
          fun c => !(sendOk message c)).count ws = 0 := by
        rw [List.count_eq_zero]
        intro hmem
        have := (List.mem_filter.1 hmem).2
        rw [hso] at this
        simp at this
      simp [hz]
    | false =>
      have hc : (m.active_connections.filter
          fun c => !(sendOk message c)).count ws =
          m.active_connections.count ws :=
        List.count_filter (by simp [hso])
      simp [hc]

/-- C9: in any registry state, a subscriber whose delivery fails during a
broadcast is removed from the registry before the call returns, and a
subsequent broadcast makes no delivery attempt to it; a subscriber whose
delivery succeeds stays registered. -/
theorem broadcast_failure_removes (sendOk : String → WebSocket → Bool)
    (message : String) (m : ConnectionManager) (ws : WebSocket)
    (hmem : ws ∈ m.active_connections) :
    (sendOk message ws = false →
      ws ∉ (broadcast sendOk message m).2.active_connections ∧
      ws ∉ (broadcast sendOk message (broadcast sendOk message m).2).1) ∧
    (sendOk message ws = true →
      ws ∈ (broadcast sendOk message m).2.active_connections) := by
  constructor
  · intro hfail
    have hz : (broadcast sendOk message m).2.active_connections.count ws = 0 := by
      rw [broadcast_count, hfail]
      simp
    have hnot : ws ∉ (broadcast sendOk message m).2.active_connections := by
      intro hmem'
      have := List.count_pos_iff.2 hmem'
      omega
    refine ⟨hnot, ?_⟩
    rw [broadcast_fst]
    exact hnot
  · intro hok
    have hc : (broadcast sendOk message m).2.active_connections.count ws =
        m.active_connections.count ws := by
      rw [broadcast_count, hok]
      simp
    have hpos := List.count_pos_iff.2 hmem
    exact List.count_pos_iff.1 (by omega)

/-- Witness for C9: registry `[1, 2, 3]`, delivery to `2` fails — `2` is
gone from the registry and from the next broadcast's attempts, while `1`
(delivery succeeded) stays. -/
theorem broadcast_failure_removes_witness :
    ((2 : WebSocket) ∉
        (broadcast (fun _ w => w != 2) "m" ⟨[1, 2, 3]⟩).2.active_connections ∧
      (2 : WebSocket) ∉
        (broadcast (fun _ w => w != 2) "m"
          (broadcast (fun _ w => w != 2) "m" ⟨[1, 2, 3]⟩).2).1) ∧
    (1 : WebSocket) ∈
      (broadcast (fun _ w => w != 2) "m" ⟨[1, 2, 3]⟩).2.active_connections := by
  have h2 := broadcast_failure_removes (fun _ w => w != 2) "m" ⟨[1, 2, 3]⟩ 2
    (by decide)
  have h1 := broadcast_failure_removes (fun _ w => w != 2) "m" ⟨[1, 2, 3]⟩ 1
    (by decide)
  exact ⟨h2.1 (by decide), h1.2 (by decide)⟩

/-- C10: within one broadcast cycle every subscriber registered at the
start receives exactly one delivery attempt (the attempt list is exactly
the starting registry, in order, whatever deliveries fail — one failure
never prevents the remaining attempts), failed subscribers are removed
only by the loop that runs after all attempts, and subscribers whose
delivery succeeds keep exactly their registration count.  `broadcast` is
a total function: it never raises. -/
theorem broadcast_attempts_all (sendOk : String → WebSocket → Bool)
    (message : String) (m : ConnectionManager) :
    (broadcast sendOk message m).1 = m.active_connections ∧
    (broadcast sendOk message m).2 =
      ((m.active_connections.filter fun c => !(sendOk message c)).foldl
        disconnect m) ∧
    (∀ ws, sendOk message ws = true →
      (broadcast sendOk message m).2.active_connections.count ws =
        m.active_connections.count ws) := by
  refine ⟨broadcast_fst sendOk message m, ?_, ?_⟩
  · unfold broadcast
    split
    · rename_i h
      simp [h]
    · rfl
  · intro ws hok
    rw [broadcast_count, hok]
    simp

/-- Witness for C10: registry `[1, 2, 3]` with delivery to `2` failing —
all three sockets are attempted, and the surviving subscriber `3` keeps
its single registration. -/
theorem broadcast_attempts_all_witness :
    (broadcast (fun _ w => w != 2) "m" ⟨[1, 2, 3]⟩).1 = [1, 2, 3] ∧
    (broadcast (fun _ w => w != 2) "m"
        ⟨[1, 2, 3]⟩).2.active_connections.count 3 =
      ([1, 2, 3] : List WebSocket).count 3 := by
  have h := broadcast_attempts_all (fun _ w => w != 2) "m" ⟨[1, 2, 3]⟩
  exact ⟨h.1, h.2.2 3 (by decide)⟩

end Sshsshje
